import Mathlib

/-!
# Verification of the `etils.ecolab.inspects` node/rendering core

Shallow embedding of `src/etils/ecolab/inspects/nodes.py`: an HTML tree
builder for arbitrary Python objects.  Python values are embedded as the
inductive `PyVal`; the global node registry `_ALL_NODES` together with the
uuid generator becomes an explicit `Registry` state threaded through every
operation that constructs nodes; rendering queries are functions of that
state.

External collaborators that are not part of the sources (the attribute
extractor `attrs.get_attrs`, the exception wrapper `attrs.ExceptionWrapper`,
the HTML emission helper `html_helper`, the array spec provider `enp`, the
stdlib functions `html.escape`, `repr`, `uuid.uuid1` and `id`) are modelled
from the specification, and each such definition carries a comment saying
so.
-/

set_option autoImplicit false
set_option maxRecDepth 8192

namespace Inspects

/-- Modelled from the spec: `attrs.ExceptionWrapper` (attribute-extractor
module, not part of the sources) wraps a caught exception `e`; the only
observation the rendering core makes of the wrapped exception is its
`repr` string, which we carry directly. -/
structure PyExn where
  reprStr : String
  deriving Repr, DecidableEq

/-- Embedding of the Python values the inspector dispatches on.  One
constructor per `isinstance` class the source distinguishes:

* scalar builtins (`None`, `Ellipsis`, `bool`, `int`, `float`, `str`,
  `bytes`); a float is carried by its `repr` string, no claim computes
  with float values;
* containers (`mapping`, `sequence`, `set`) carrying their items;
* classes (`cls`, with its name and method-resolution-order list),
  functions (`fn`), arrays (`array`, carried by the `repr` string of its
  `enp.ArraySpec`), exception wrappers (`excWrapper`);
* generic objects (`obj`) carrying the attribute mapping that the external
  extractor `attrs.get_attrs` reports for them, and the outcome of
  `repr(obj)`, which may raise (`Except.error`). -/
inductive PyVal where
  | none
  | ellipsis
  | bool (b : Bool)
  | int (n : Int)
  | float (reprStr : String)
  | str (s : String)
  | bytes (s : String)
  | mapping (items : List (PyVal × PyVal))
  | sequence (items : List PyVal)
  | set (items : List PyVal)
  | cls (name : String) (mro : List PyVal)
  | fn (name : String)
  | array (specStr : String)
  | excWrapper (e : PyExn)
  | obj (attrs : List (String × PyVal)) (reprE : Except PyExn String)

/-- The node variants of `nodes.py`, one per `Node.from_obj` candidate
class (`BuiltinNode`, `FnNode`, `MappingNode`, `SequenceNode`, `SetNode`,
`ClsNode`, `ArrayNode`, `ExceptionNode`, `ObjectNode`). -/
inductive Variant where
  | builtin
  | fn
  | mapping
  | sequence
  | set
  | cls
  | array
  | exception
  | object
  deriving Repr, DecidableEq

/-- `isinstance(obj, sub_cls.MATCH_TYPES)` for each candidate class.
`BuiltinNode.MATCH_TYPES = (type(None), int, float, bool, str, bytes,
type(...))`; note that a Python `bool` is an instance of `int`, so booleans
match the builtin tuple through both `int` and `bool`.
`ObjectNode.MATCH_TYPES = object` matches every value. -/
def matchTypes : Variant → PyVal → Bool
  | .builtin, .none => true
  | .builtin, .ellipsis => true
  | .builtin, .bool _ => true
  | .builtin, .int _ => true
  | .builtin, .float _ => true
  | .builtin, .str _ => true
  | .builtin, .bytes _ => true
  | .builtin, _ => false
  | .fn, .fn _ => true
  | .fn, _ => false
  | .mapping, .mapping _ => true
  | .mapping, _ => false
  | .sequence, .sequence _ => true
  | .sequence, _ => false
  | .set, .set _ => true
  | .set, _ => false
  | .cls, .cls _ _ => true
  | .cls, _ => false
  | .array, .array _ => true
  | .array, _ => false
  | .exception, .excWrapper _ => true
  | .exception, _ => false
  | .object, _ => true

/-- The candidate list of `Node.from_obj`, in source order:
`[BuiltinNode, FnNode, MappingNode, SequenceNode, SetNode, ClsNode,
ArrayNode, ExceptionNode, ObjectNode]`. -/
def subclassOrder : List Variant :=
  [.builtin, .fn, .mapping, .sequence, .set, .cls, .array, .exception,
   .object]

/-- The `for sub_cls in [...]: if isinstance(obj, sub_cls.MATCH_TYPES):
break` loop of `Node.from_obj`: first candidate whose `MATCH_TYPES`
matches, `none` when the loop falls through to the `else: raise`. -/
def dispatch? (v : PyVal) : Option Variant :=
  subclassOrder.find? (fun c => matchTypes c v)

/-- An `ObjectNode` (or a subclass-variant thereof): a registered node
wrapping an arbitrary value `obj` and a display name.  `Node.from_obj`
always returns one of these. -/
structure ObjNode where
  id : String
  variant : Variant
  obj : PyVal
  name : String

/-- A node of the tree: an `ObjectNode` variant, a `SubsectionNode`
(synthetic grouping with a name and an explicit child list), or a
`KeyValNode` (one key/value item of a `list`/`dict`/`set`). -/
inductive Node where
  | object (o : ObjNode)
  | subsection (id : String) (name : String) (childs : List Node)
  | keyval (id : String) (key : PyVal) (value : PyVal)

/-- The `id` attribute every node receives in `Node.__post_init__`. -/
def Node.getId : Node → String
  | .object o => o.id
  | .subsection i _ _ => i
  | .keyval i _ _ => i

/-- Modelled from the spec: `uuid.uuid1()` yields a fresh, globally unique
id string for every constructed node.  Modelled as an injective function of
the registry's creation counter (the `n`-th id issued is the string of
`n + 1` copies of the letter `u`); only freshness and injectivity of the
generated ids matter to the source. -/
def mkId (n : Nat) : String :=
  String.mk (List.replicate (n + 1) 'u')

/-- The mutable global state of `nodes.py`: the `_ALL_NODES` registry (an
insertion dict from id to node, newest first) together with the state of
the uuid generator (modelled as a counter, see `mkId`). -/
structure Registry where
  counter : Nat
  nodes : List (String × Node)

/-- `_ALL_NODES[id_]`, as used by `Node.from_id`: the registered node for
an id, `none` when the id is unknown (Python raises `KeyError`). -/
def Registry.lookup (s : Registry) (id : String) : Option Node :=
  (s.nodes.find? (fun p => p.1 == id)).map (fun p => p.2)

/-- `Node.from_id`: returns the cached node from the HTML id. -/
def Node.from_id (s : Registry) (id : String) : Option Node :=
  s.lookup id

/-- `Node.__post_init__`: assign a freshly generated uuid to the node
under construction (`mk` builds the node from its assigned id) and insert
it into `_ALL_NODES` before it is returned. -/
def postInit (mk : String → Node) (s : Registry) : Node × Registry :=
  let id := mkId s.counter
  let n := mk id
  (n, ⟨s.counter + 1, (id, n) :: s.nodes⟩)

/-- Construction of an `ObjectNode` subclass instance
(`sub_cls(obj=obj, name=name)`), running `Node.__post_init__`. -/
def registerObj (variant : Variant) (obj : PyVal) (name : String)
    (s : Registry) : ObjNode × Registry :=
  let o : ObjNode := ⟨mkId s.counter, variant, obj, name⟩
  (o, ⟨s.counter + 1, (o.id, Node.object o) :: s.nodes⟩)

/-- Construction of a `KeyValNode`, running `Node.__post_init__`. -/
def mkKeyVal (key value : PyVal) (s : Registry) : Node × Registry :=
  let n := Node.keyval (mkId s.counter) key value
  (n, ⟨s.counter + 1, (n.getId, n) :: s.nodes⟩)

/-- Construction of a `SubsectionNode`, running `Node.__post_init__`. -/
def mkSubsection (name : String) (childs : List Node) (s : Registry) :
    Node × Registry :=
  let n := Node.subsection (mkId s.counter) name childs
  (n, ⟨s.counter + 1, (n.getId, n) :: s.nodes⟩)

/-- `Node.from_obj`: factory of a node from any object.  Picks the first
matching candidate of `subclassOrder` and constructs it; the `.getD
.object` default is dead code because `ObjectNode.MATCH_TYPES` matches
everything (theorem `from_obj_never_type_error` relates this definition to
`from_objE`, which models the `else: raise TypeError` branch verbatim). -/
def Node.from_obj (obj : PyVal) (name : String) (s : Registry) :
    ObjNode × Registry :=
  registerObj ((dispatch? obj).getD .object) obj name s

/-- `Node.from_obj` with the `for`/`else: raise TypeError(...)` modelled
verbatim: `Except.error` stands for the raised `TypeError`. -/
def from_objE (obj : PyVal) (name : String) (s : Registry) :
    Except String ObjNode × Registry :=
  match dispatch? obj with
  | some c =>
    let (o, s') := registerObj c obj name s
    (.ok o, s')
  | none => (.error "Unexpected object", s)

/-- Python `len(value)` on a string: number of code points. -/
def strLen (s : String) : Nat :=
  s.data.length

/-- Python slice `value[:n]` on a string: first `n` code points. -/
def strTake (s : String) (n : Nat) : String :=
  String.mk (s.data.take n)

/-- Python `s.startswith(p)`. -/
def pyStartsWith (s p : String) : Bool :=
  p.data.isPrefixOf s.data

/-- Python `s.endswith(p)`. -/
def pyEndsWith (s p : String) : Bool :=
  p.data.isSuffixOf s.data

/-- `needle` occurs as a contiguous sublist of `hay`. -/
def listContains (hay needle : List Char) : Bool :=
  needle.isPrefixOf hay ||
    match hay with
    | [] => false
    | _ :: t => listContains t needle

/-- `needle in hay` on strings (used only to state theorems about the
produced HTML, not by the embedded code itself). -/
def strContains (hay needle : String) : Bool :=
  listContains hay.data needle.data

/-- A single-quote character, written via its code point. -/
def sq : String :=
  String.singleton (Char.ofNat 39)

/-- `html.escape(s)` (with its default `quote=True`) replaces `&`, `<`,
`>`, `"` and the single quote by their HTML entities; the sequential
`str.replace` calls of the stdlib implementation amount to this per-code-
point mapping because no replacement string contains a character that a
later replacement rewrites. -/
def escChar (c : Char) : String :=
  if c = '&' then "&amp;"
  else if c = '<' then "&lt;"
  else if c = '>' then "&gt;"
  else if c = '"' then "&quot;"
  else if c = Char.ofNat 39 then "&#x27;"
  else String.singleton c

/-- `html.escape`, see `escChar`. -/
def htmlEscape (s : String) : String :=
  (s.data.map escChar).foldl (fun acc t => acc ++ t) ""

/-- Space-joined class list, as emitted into a `class` attribute. -/
def joinSp : List String → String
  | [] => ""
  | [c] => c
  | c :: rest => c ++ " " ++ joinSp rest

namespace H

/-- Modelled from the spec: the HTML emission helper (`html_helper`, not
part of the sources) renders a `<span>` with the given class list; the
variadic contents are concatenated. -/
def span (classes : List String) (content : String) : String :=
  "<span class=\"" ++ joinSp classes ++ "\">" ++ content ++ "</span>"

/-- Modelled from the spec: `H.span` with a plain string `class_`
argument. -/
def spanS (classAttr : String) (content : String) : String :=
  "<span class=\"" ++ classAttr ++ "\">" ++ content ++ "</span>"

/-- Modelled from the spec: `<li>` element with an `id` attribute. -/
def li (id : String) (content : String) : String :=
  "<li id=\"" ++ id ++ "\">" ++ content ++ "</li>"

/-- Modelled from the spec: `<ul>` element with a class list; the variadic
contents are concatenated. -/
def ul (classes : List String) (contents : List String) : String :=
  "<ul class=\"" ++ joinSp classes ++ "\">"
    ++ contents.foldl (fun acc t => acc ++ t) "" ++ "</ul>"

end H

/-- `_truncate_long_str`: escape, then wrap renderings longer than 80
characters into a short fragment (first 80 characters plus the `...`
expand affordance) and a long fragment carrying the full escaped string. -/
def _truncate_long_str (value : String) : String :=
  let value := htmlEscape value
  if strLen value > 80 then
    H.span ["content-switch"]
      (H.span ["content-version-short"]
        (strTake value 80
          ++ H.spanS "content-switch-expand register-onclick-switch" "...")
        ++ H.spanS "content-version-long register-onclick-switch" value)
  else value

/-- Python `repr` on the scalar values of the builtin branches of
`_obj_html_repr`.  Modelled from the stdlib: exact for `None`, `...`,
`bool` and `int`; a float or an array spec carries its `repr` string
directly; for `str`/`bytes` the quoting is modelled as plain single quotes
(Python's escaping and quote-selection inside the quotes is irrelevant to
every claim, which only depend on the length and on HTML escaping). -/
def pyReprScalar : PyVal → String
  | .none => "None"
  | .ellipsis => "Ellipsis"
  | .bool b => if b then "True" else "False"
  | .int n => n.repr
  | .float r => r
  | .str s => sq ++ s ++ sq
  | .bytes s => "b" ++ sq ++ s ++ sq
  | _ => ""

/-- Python `repr` as it can fail: a generic object carries the outcome of
its own `repr` (which may raise); container/class/function `repr` strings
are abstracted to short summaries (modelled from the stdlib; no claim
depends on their text). -/
def pyReprE : PyVal → Except PyExn String
  | .obj _ reprE => reprE
  | .mapping _ => .ok ("\x7b...\x7d")
  | .set _ => .ok ("\x7b...\x7d")
  | .sequence _ => .ok "[...]"
  | .cls name _ => .ok ("<class " ++ sq ++ name ++ sq ++ ">")
  | .fn name => .ok ("<function " ++ name ++ ">")
  | v => .ok (pyReprScalar v)

/-- `isinstance(obj, (int, float))`: `bool` is a subclass of `int` in
Python, so booleans satisfy this check. -/
def isInstIntFloat : PyVal → Bool
  | .int _ => true
  | .float _ => true
  | .bool _ => true
  | _ => false

/-- The `error` outcome of `_obj_html_repr`: `type_ = 'error'`,
`obj = wrapper.e`, then (an exception is not a `str`) `obj = repr(obj)`
escaped into the tagged span. -/
def _obj_html_repr_error (e : PyExn) : String :=
  H.span ["error"] (htmlEscape e.reprStr)

/-- The final `else` branch of `_obj_html_repr`: `type_ = 'preview'`,
`obj = repr(obj)` — recursing into `_obj_html_repr` on an
`ExceptionWrapper` when `repr` itself raises — then
`obj = _truncate_long_str(obj)`.  The recursive call lands in the
`ExceptionWrapper` branch, i.e. `_obj_html_repr_error` (theorem
`formatter_recovers_from_failing_repr` records the equality with the
recursion). -/
def _obj_repr_fallback (r : Except PyExn String) : String :=
  match r with
  | .ok rep => H.span ["preview"] (_truncate_long_str rep)
  | .error e => _obj_html_repr_error e

/-- `_obj_html_repr`: the value formatter.  Each branch of the source's
`isinstance` chain computes `(type_, obj)`; the trailing
`if not isinstance(obj, str): obj = repr(obj); obj = html.escape(obj)`
postlude is inlined into each branch. -/
def _obj_html_repr (v : PyVal) : String :=
  if matchTypes .builtin v then
    -- the scalar chain: None / Ellipsis → 'null', (int, float) → 'number',
    -- bool → 'boolean' (dead: booleans are ints), (str, bytes) → 'string'
    match v with
    | .none => H.span ["null"] (htmlEscape (pyReprScalar v))
    | .ellipsis => H.span ["null"] (htmlEscape (pyReprScalar v))
    | .str _ => H.span ["string"] (_truncate_long_str (pyReprScalar v))
    | .bytes _ => H.span ["string"] (_truncate_long_str (pyReprScalar v))
    | w =>
      if isInstIntFloat w then H.span ["number"] (htmlEscape (pyReprScalar w))
      else H.span ["boolean"] (htmlEscape (pyReprScalar w))
  else
    match v with
    | .array specStr =>
      -- isinstance(obj, enp.lazy.LazyArray): obj = ArraySpec.from_array(obj)
      H.span ["number"] (htmlEscape specStr)
    | .excWrapper e => _obj_html_repr_error e
    | w => _obj_repr_fallback (pyReprE w)

/-- Modelled from the spec: the external attribute extractor
`attrs.get_attrs` (not part of the sources) returns a name-to-value
mapping of an object's inspectable attributes.  A generic object carries
that mapping; for the other embedded values the extraction is not
exercised by any claim and is modelled as empty. -/
def get_attrs : PyVal → List (String × PyVal)
  | .obj attrs _ => attrs
  | _ => []

/-- Modelled from the spec: CPython's `id()` identity token for a set
element.  Its concrete value is environment-specific and no claim depends
on it. -/
def pyId (_ : PyVal) : Int :=
  0

/-- `self.obj.items()` of `MappingNode.all_childs`. -/
def PyVal.items : PyVal → List (PyVal × PyVal)
  | .mapping l => l
  | _ => []

/-- Iteration over `self.obj` of `SetNode.all_childs` /
`SequenceNode.all_childs`. -/
def PyVal.elems : PyVal → List PyVal
  | .sequence l => l
  | .set l => l
  | _ => []

/-- `self.obj.mro()` of `ClsNode.all_childs`. -/
def PyVal.mro : PyVal → List PyVal
  | .cls _ m => m
  | _ => []

/-- `ObjectNode.is_root`: `not bool(self.name)`. -/
def ObjNode.is_root (o : ObjNode) : Bool :=
  o.name == ""

/-- `is_leaf`: `False` on `ObjectNode`, overridden on `BuiltinNode`
(`not self.is_root`: builtins can be recursed into only as roots) and on
`ExceptionNode` (`True`). -/
def ObjNode.is_leaf (o : ObjNode) : Bool :=
  match o.variant with
  | .builtin => !o.is_root
  | .exception => true
  | _ => false

/-- `ObjectNode.header_repr`. -/
def ObjNode.header_repr (o : ObjNode) : String :=
  _obj_html_repr o.obj

/-- `Node._li`: the `<li>` section emitted by `header_html`; a clickable
node gets the `register-onclick-expand` caret class, a non-clickable one
`caret-invisible`. -/
def _li (id : String) (clickable : Bool) (content : String) : String :=
  let class_ := if clickable then "register-onclick-expand"
    else "caret-invisible"
  H.li id (H.span ["caret", class_] content)

/-- `ObjectNode.header_html`: `"<name>: " + header_repr` (the name prefix
omitted at the root), clickable unless the node is a leaf. -/
def ObjNode.header_html (o : ObjNode) : String :=
  let pfx := if o.is_root then "" else o.name ++ ": "
  _li o.id (!o.is_leaf) (H.span ["key-main"] (pfx ++ o.header_repr))

/-- `header_html` of any node: `SubsectionNode` renders `[[name]]`,
`KeyValNode` renders `key: value` through the value formatter, and both
are always clickable; an `ObjectNode` defers to `ObjNode.header_html`. -/
def Node.header_html : Node → String
  | .object o => o.header_html
  | .subsection id name _ =>
    _li id true (H.span ["preview"] ("[[" ++ name ++ "]]"))
  | .keyval id key value =>
    _li id true (_obj_html_repr key ++ ": " ++ _obj_html_repr value)

/-- The four buckets `ObjectNode.all_childs` partitions its children
into, in source declaration order. -/
structure Partition where
  magic_attrs : List ObjNode
  fn_attrs : List ObjNode
  private_attrs : List ObjNode
  val_attrs : List ObjNode

/-- `c.name.startswith('__') and c.name.endswith('__')`. -/
def isMagicName (name : String) : Bool :=
  pyStartsWith name "__" && pyEndsWith name "__"

/-- `isinstance(c, FnNode)`. -/
def isFnNode (c : ObjNode) : Bool :=
  c.variant == .fn

/-- The partition loop of `ObjectNode.all_childs`: each child goes to the
first matching bucket of the `if`/`elif` chain — dunder name, then leading
underscore, then `FnNode`, else value — keeping the iteration order inside
every bucket. -/
def partitionChilds : List ObjNode → Partition
  | [] => ⟨[], [], [], []⟩
  | c :: cs =>
    let P := partitionChilds cs
    if isMagicName c.name then
      ⟨c :: P.magic_attrs, P.fn_attrs, P.private_attrs, P.val_attrs⟩
    else if pyStartsWith c.name "_" then
      ⟨P.magic_attrs, P.fn_attrs, c :: P.private_attrs, P.val_attrs⟩
    else if isFnNode c then
      ⟨P.magic_attrs, c :: P.fn_attrs, P.private_attrs, P.val_attrs⟩
    else
      ⟨P.magic_attrs, P.fn_attrs, P.private_attrs, c :: P.val_attrs⟩

/-- `[Node.from_obj(v, name=k) for k, v in ...]`: build (and register) one
node per attribute, in order. -/
def mapFromObj : List (String × PyVal) → Registry → List ObjNode × Registry
  | [], s => ([], s)
  | (k, v) :: rest, s =>
    let (n, s1) := Node.from_obj v k s
    let (ns, s2) := mapFromObj rest s1
    (n :: ns, s2)

/-- `[Node.from_obj(cls) for cls in ...]` (default empty name). -/
def mapFromObjList : List PyVal → Registry → List ObjNode × Registry
  | [], s => ([], s)
  | v :: rest, s =>
    let (n, s1) := Node.from_obj v "" s
    let (ns, s2) := mapFromObjList rest s1
    (n :: ns, s2)

/-- `[KeyValNode(key=k, value=v) for k, v in ...]`. -/
def mapKeyVal : List (PyVal × PyVal) → Registry → List Node × Registry
  | [], s => ([], s)
  | (k, v) :: rest, s =>
    let (n, s1) := mkKeyVal k v s
    let (ns, s2) := mapKeyVal rest s1
    (n :: ns, s2)

/-- `[KeyValNode(key=i, value=v) for i, v in enumerate(...)]`. -/
def mapKeyValIdx (i : Nat) : List PyVal → Registry → List Node × Registry
  | [], s => ([], s)
  | v :: rest, s =>
    let (n, s1) := mkKeyVal (.int i) v s
    let (ns, s2) := mapKeyValIdx (i + 1) rest s1
    (n :: ns, s2)

/-- `[KeyValNode(key=id(v), value=v) for v in ...]`. -/
def mapKeyValSet : List PyVal → Registry → List Node × Registry
  | [], s => ([], s)
  | v :: rest, s =>
    let (n, s1) := mkKeyVal (.int (pyId v)) v s
    let (ns, s2) := mapKeyValSet rest s1
    (n :: ns, s2)

/-- `ObjectNode.all_childs`: one node per extracted attribute, then the
children partitioned into buckets; starting from the value attributes, a
`SubsectionNode` is appended for each non-empty bucket, in the order
Methods, Private, Special attributes. -/
def object_all_childs (o : ObjNode) (s : Registry) :
    List Node × Registry :=
  let (cs, s1) := mapFromObj (get_attrs o.obj) s
  let P := partitionChilds cs
  let all0 := P.val_attrs.map Node.object
  let (all1, s2) :=
    if P.fn_attrs.isEmpty then (all0, s1)
    else
      let (sub, s') := mkSubsection "Methods" (P.fn_attrs.map Node.object) s1
      (all0 ++ [sub], s')
  let (all2, s3) :=
    if P.private_attrs.isEmpty then (all1, s2)
    else
      let (sub, s') :=
        mkSubsection "Private" (P.private_attrs.map Node.object) s2
      (all1 ++ [sub], s')
  let (all3, s4) :=
    if P.magic_attrs.isEmpty then (all2, s3)
    else
      let (sub, s') :=
        mkSubsection "Special attributes" (P.magic_attrs.map Node.object) s3
      (all2 ++ [sub], s')
  (all3, s4)

/-- `all_childs` with the variant overrides: `MappingNode`,
`SequenceNode` and `SetNode` put one `KeyValNode` per item before the
generic children; `ClsNode` appends a synthetic `[[mro]]` subsection after
them; every other variant inherits `ObjectNode.all_childs`. -/
def all_childs (o : ObjNode) (s : Registry) : List Node × Registry :=
  match o.variant with
  | .mapping =>
    let (kvs, s1) := mapKeyVal o.obj.items s
    let (rest, s2) := object_all_childs o s1
    (kvs ++ rest, s2)
  | .sequence =>
    let (kvs, s1) := mapKeyValIdx 0 o.obj.elems s
    let (rest, s2) := object_all_childs o s1
    (kvs ++ rest, s2)
  | .set =>
    let (kvs, s1) := mapKeyValSet o.obj.elems s
    let (rest, s2) := object_all_childs o s1
    (kvs ++ rest, s2)
  | .cls =>
    let (rest, s1) := object_all_childs o s
    let (mroNodes, s2) := mapFromObjList o.obj.mro s1
    let (sub, s3) := mkSubsection "mro" (mroNodes.map Node.object) s2
    (rest ++ [sub], s3)
  | _ => object_all_childs o s

/-- `ObjectNode.inner_html`: the headers of `all_childs` wrapped in a
collapsible `<ul>`.  Enumerating the children constructs (and registers)
fresh nodes, so the registry state is threaded through. -/
def objInnerHtml (o : ObjNode) (s : Registry) : String × Registry :=
  let (cs, s1) := all_childs o s
  (H.ul ["collapsible"] (cs.map Node.header_html), s1)

/-- `inner_html` of any node: a `SubsectionNode` renders the headers of
its stored children; a `KeyValNode` re-dispatches its value through
`Node.from_obj` (constructing and registering a fresh node) and renders
that node's inner HTML; an `ObjectNode` renders its children's headers. -/
def Node.inner_html : Node → Registry → String × Registry
  | .subsection _ _ childs, s =>
    (H.ul ["collapsible"] (childs.map Node.header_html), s)
  | .keyval _ _ value, s =>
    let (n, s1) := Node.from_obj value "" s
    objInnerHtml n s1
  | .object o, s => objInnerHtml o s

/-- Registry well-formedness: every registered id was issued by the uuid
generator at some earlier counter value.  Holds for the empty initial
registry and is preserved by every node construction
(`construction_registers_node_before_return`). -/
def Registry.WF (s : Registry) : Prop :=
  ∀ p ∈ s.nodes, ∃ k, k < s.counter ∧ p.1 = mkId k

/-- `s'` is reachable from `s` by only registering new nodes: the registry
keeps every existing entry (new ones are prepended) and the id counter
never decreases. -/
def Registry.Extends (s s' : Registry) : Prop :=
  (∃ new, s'.nodes = new ++ s.nodes) ∧ s.counter ≤ s'.counter

/-- The dispatch order exactly as the claim states it: builtin scalar
types, mapping, sequence, set, class, array, exception-wrapper, generic
object — with no function/callable predicate. -/
def claimOrder : List Variant :=
  [.builtin, .mapping, .sequence, .set, .cls, .array, .exception, .object]

/-- First match over `claimOrder` (the final catch-all makes the default
dead). -/
def claimDispatch (v : PyVal) : Variant :=
  (claimOrder.find? (fun c => matchTypes c v)).getD .object

/-- The dispatch order as the amended claim states it: the
function/callable predicate sits between the builtin scalars and the
mapping predicate. -/
def claimOrderAmended : List Variant :=
  [.builtin, .fn, .mapping, .sequence, .set, .cls, .array, .exception,
   .object]

/-- Membership test of the `Private` bucket: leading underscore, not
dunder. -/
def isPrivateChild (c : ObjNode) : Bool :=
  !isMagicName c.name && pyStartsWith c.name "_"

/-- Membership test of the `Methods` bucket: an `FnNode` whose name no
name-pattern test claimed first. -/
def isMethodChild (c : ObjNode) : Bool :=
  !isMagicName c.name && !pyStartsWith c.name "_" && isFnNode c

/-- Membership test of the inline value bucket: everything the other three
tests reject. -/
def isValChild (c : ObjNode) : Bool :=
  !isMagicName c.name && !pyStartsWith c.name "_" && !isFnNode c

/-- A 100-character string, for exercising the truncation path. -/
def sampleLong : String :=
  String.mk (List.replicate 100 'a')

/-! ## Helper lemmas -/

theorem mkId_injective : Function.Injective mkId := by
  intro a b h
  have h2 := congrArg (fun s => s.data.length) h
  simpa [mkId] using h2

theorem lookup_insert_self (c : Nat) (nodes : List (String × Node))
    (i : String) (n : Node) :
    Registry.lookup ⟨c, (i, n) :: nodes⟩ i = some n := by
  unfold Registry.lookup
  rw [List.find?_cons_of_pos _ (by simp)]
  rfl

theorem lookup_fresh_none (s : Registry) (hWF : s.WF) :
    s.lookup (mkId s.counter) = none := by
  unfold Registry.lookup
  rw [List.find?_eq_none.mpr]
  · rfl
  intro x hx hbeq
  obtain ⟨k, hk, hx1⟩ := hWF x hx
  have : mkId k = mkId s.counter := hx1 ▸ eq_of_beq hbeq
  exact absurd (mkId_injective this) (Nat.ne_of_lt hk)

theorem wf_insert (s : Registry) (hWF : s.WF) (n : Node) :
    Registry.WF ⟨s.counter + 1, (mkId s.counter, n) :: s.nodes⟩ := by
  intro p hp
  rcases List.mem_cons.mp hp with h | h
  · exact ⟨s.counter, Nat.lt_succ_self _, by rw [h]⟩
  · obtain ⟨k, hk, he⟩ := hWF p h
    exact ⟨k, Nat.lt_succ_of_lt hk, he⟩

theorem partitionChilds_eq (cs : List ObjNode) :
    partitionChilds cs =
      ⟨cs.filter (fun c => isMagicName c.name), cs.filter isMethodChild,
       cs.filter isPrivateChild, cs.filter isValChild⟩ := by
  induction cs with
  | nil => rfl
  | cons c cs ih =>
    simp only [partitionChilds, ih]
    cases hm : isMagicName c.name <;> cases hp : pyStartsWith c.name "_" <;>
      cases hf : isFnNode c <;>
      simp [List.filter_cons, isMethodChild, isPrivateChild, isValChild,
        hm, hp, hf]

theorem extends_refl (s : Registry) : s.Extends s :=
  ⟨⟨[], rfl⟩, Nat.le_refl _⟩

theorem extends_trans {s t u : Registry} (h1 : s.Extends t)
    (h2 : t.Extends u) : s.Extends u := by
  obtain ⟨⟨n1, e1⟩, c1⟩ := h1
  obtain ⟨⟨n2, e2⟩, c2⟩ := h2
  exact ⟨⟨n2 ++ n1, by rw [e2, e1, List.append_assoc]⟩, Nat.le_trans c1 c2⟩

theorem extends_registerObj (variant : Variant) (obj : PyVal)
    (name : String) (s : Registry) :
    s.Extends (registerObj variant obj name s).2 :=
  ⟨⟨[_], rfl⟩, Nat.le_succ _⟩

theorem extends_from_obj (obj : PyVal) (name : String) (s : Registry) :
    s.Extends (Node.from_obj obj name s).2 :=
  extends_registerObj _ obj name s

theorem extends_mkKeyVal (key value : PyVal) (s : Registry) :
    s.Extends (mkKeyVal key value s).2 :=
  ⟨⟨[_], rfl⟩, Nat.le_succ _⟩

theorem extends_mkSubsection (name : String) (childs : List Node)
    (s : Registry) : s.Extends (mkSubsection name childs s).2 :=
  ⟨⟨[_], rfl⟩, Nat.le_succ _⟩

theorem extends_mapFromObj (l : List (String × PyVal)) (s : Registry) :
    s.Extends (mapFromObj l s).2 := by
  induction l generalizing s with
  | nil => exact extends_refl s
  | cons kv rest ih =>
    exact extends_trans (extends_from_obj kv.2 kv.1 s) (ih _)

theorem extends_mapFromObjList (l : List PyVal) (s : Registry) :
    s.Extends (mapFromObjList l s).2 := by
  induction l generalizing s with
  | nil => exact extends_refl s
  | cons v rest ih =>
    exact extends_trans (extends_from_obj v "" s) (ih _)

theorem extends_mapKeyVal (l : List (PyVal × PyVal)) (s : Registry) :
    s.Extends (mapKeyVal l s).2 := by
  induction l generalizing s with
  | nil => exact extends_refl s
  | cons kv rest ih =>
    exact extends_trans (extends_mkKeyVal kv.1 kv.2 s) (ih _)

theorem extends_mapKeyValIdx (i : Nat) (l : List PyVal) (s : Registry) :
    s.Extends (mapKeyValIdx i l s).2 := by
  induction l generalizing i s with
  | nil => exact extends_refl s
  | cons v rest ih =>
    exact extends_trans (extends_mkKeyVal (.int i) v s) (ih _ _)

theorem extends_mapKeyValSet (l : List PyVal) (s : Registry) :
    s.Extends (mapKeyValSet l s).2 := by
  induction l generalizing s with
  | nil => exact extends_refl s
  | cons v rest ih =>
    exact extends_trans (extends_mkKeyVal (.int (pyId v)) v s) (ih _)

theorem extends_object_all_childs (o : ObjNode) (s : Registry) :
    s.Extends (object_all_childs o s).2 := by
  unfold object_all_childs
  refine extends_trans (extends_mapFromObj (get_attrs o.obj) s) ?_
  dsimp only
  split <;> split <;> split <;>
    first
      | exact extends_refl _
      | exact extends_mkSubsection _ _ _
      | exact extends_trans (extends_mkSubsection _ _ _)
          (extends_mkSubsection _ _ _)
      | exact extends_trans (extends_mkSubsection _ _ _)
          (extends_trans (extends_mkSubsection _ _ _)
            (extends_mkSubsection _ _ _))

theorem extends_all_childs (o : ObjNode) (s : Registry) :
    s.Extends (all_childs o s).2 := by
  unfold all_childs
  split
  · exact extends_trans (extends_mapKeyVal _ s)
      (extends_object_all_childs o _)
  · exact extends_trans (extends_mapKeyValIdx 0 _ s)
      (extends_object_all_childs o _)
  · exact extends_trans (extends_mapKeyValSet _ s)
      (extends_object_all_childs o _)
  · exact extends_trans (extends_object_all_childs o s)
      (extends_trans (extends_mapFromObjList _ _) (extends_mkSubsection _ _ _))
  · exact extends_object_all_childs o s

theorem extends_objInnerHtml (o : ObjNode) (s : Registry) :
    s.Extends (objInnerHtml o s).2 :=
  extends_all_childs o s

/-! ## Claims -/

/-- C9: for every input object, the factory returns a node and never
reaches its `TypeError` failure branch, because the final generic-object
fallback matches any object: `from_objE` (the verbatim model of the
`for`/`else: raise` loop) always returns `Except.ok`, agreeing with the
total `Node.from_obj` on both the node and the registry. -/
theorem from_obj_never_type_error (v : PyVal) (name : String)
    (s : Registry) :
    from_objE v name s
      = (Except.ok (Node.from_obj v name s).1, (Node.from_obj v name s).2) := by
  cases v <;> rfl

/-- C5: a boolean is formatted with semantic tag `number`, not `boolean`,
because the `isinstance(obj, (int, float))` check precedes the `bool`
check and Python booleans are ints. -/
theorem bool_formatted_as_number (b : Bool) :
    _obj_html_repr (PyVal.bool b)
        = H.span ["number"] (htmlEscape (pyReprScalar (PyVal.bool b)))
      ∧ _obj_html_repr (PyVal.bool b)
        ≠ H.span ["boolean"] (htmlEscape (pyReprScalar (PyVal.bool b))) := by
  cases b <;> exact ⟨rfl, by decide⟩

/-- C8: when a generic object's `repr` raises, the formatter recovers by
recursing on an exception wrapper built from the failure and returns an
`error`-tagged fragment; being a total function of the failure outcome it
never propagates the secondary failure. -/
theorem formatter_recovers_from_failing_repr
    (attrs : List (String × PyVal)) (e : PyExn) :
    _obj_html_repr (PyVal.obj attrs (.error e))
        = _obj_html_repr (PyVal.excWrapper e)
      ∧ _obj_html_repr (PyVal.obj attrs (.error e))
        = H.span ["error"] (htmlEscape e.reprStr) :=
  ⟨rfl, rfl⟩

/-- C2, counterexample: the claim's predicate order (`claimOrder`, which
omits the function/callable predicate) disagrees with the factory on a
function value — the factory selects the `FnNode` variant while the
claimed order falls through to the generic-object catch-all. -/
theorem dispatch_order_claim_counterexample :
    (Node.from_obj (PyVal.fn "lambda") "" ⟨0, []⟩).1.variant = Variant.fn
      ∧ claimDispatch (PyVal.fn "lambda") = Variant.object
      ∧ (Node.from_obj (PyVal.fn "lambda") "" ⟨0, []⟩).1.variant
          ≠ claimDispatch (PyVal.fn "lambda") :=
  ⟨rfl, rfl, by decide⟩

/-- C2 (amended): the factory selects the node variant by testing the
value against an ordered list of type predicates and taking the first
match, in exactly the order: builtin scalar types, function/callable,
mapping, sequence, set, class, array, exception-wrapper, generic object
(catch-all matching everything) — `claimOrderAmended`. -/
theorem from_obj_selects_first_match (v : PyVal) (name : String)
    (s : Registry) :
    ∃ pre post,
      claimOrderAmended = pre ++ (Node.from_obj v name s).1.variant :: post
        ∧ matchTypes (Node.from_obj v name s).1.variant v = true
        ∧ ∀ c ∈ pre, matchTypes c v = false := by
  cases v
  case none => exact ⟨[], _, rfl, rfl, by simp⟩
  case ellipsis => exact ⟨[], _, rfl, rfl, by simp⟩
  case bool => exact ⟨[], _, rfl, rfl, by simp⟩
  case int => exact ⟨[], _, rfl, rfl, by simp⟩
  case float => exact ⟨[], _, rfl, rfl, by simp⟩
  case str => exact ⟨[], _, rfl, rfl, by simp⟩
  case bytes => exact ⟨[], _, rfl, rfl, by simp⟩
  case fn => exact ⟨[.builtin], _, rfl, rfl, by simp [matchTypes]⟩
  case mapping =>
    exact ⟨[.builtin, .fn], _, rfl, rfl, by simp [matchTypes]⟩
  case sequence =>
    exact ⟨[.builtin, .fn, .mapping], _, rfl, rfl, by simp [matchTypes]⟩
  case set =>
    exact ⟨[.builtin, .fn, .mapping, .sequence], _, rfl, rfl,
      by simp [matchTypes]⟩
  case cls =>
    exact ⟨[.builtin, .fn, .mapping, .sequence, .set], _, rfl, rfl,
      by simp [matchTypes]⟩
  case array =>
    exact ⟨[.builtin, .fn, .mapping, .sequence, .set, .cls], _, rfl, rfl,
      by simp [matchTypes]⟩
  case excWrapper =>
    exact ⟨[.builtin, .fn, .mapping, .sequence, .set, .cls, .array], _,
      rfl, rfl, by simp [matchTypes]⟩
  case obj =>
    exact ⟨[.builtin, .fn, .mapping, .sequence, .set, .cls, .array,
      .exception], _, rfl, rfl, by simp [matchTypes]⟩

/-- C2 (amended), witness at a concrete input. -/
theorem from_obj_selects_first_match_witness :
    ∃ pre post,
      claimOrderAmended
          = pre ++ (Node.from_obj (PyVal.fn "f") "" ⟨0, []⟩).1.variant :: post
        ∧ matchTypes (Node.from_obj (PyVal.fn "f") "" ⟨0, []⟩).1.variant
            (PyVal.fn "f") = true
        ∧ ∀ c ∈ pre, matchTypes c (PyVal.fn "f") = false :=
  from_obj_selects_first_match (PyVal.fn "f") "" ⟨0, []⟩

/-- C7: the code evaluated at the failing input.  A mapping with the
single entry `('a', 5)` enumerates its child as a `KeyValNode`; contrary
to the claim (and to the `Built-ins should not be expandable` TODO in the
source), that node's header carries the clickable
`register-onclick-expand` caret, not `caret-invisible`, and expanding it
re-dispatches the integer as a root node, which is not a leaf. -/
theorem nested_builtin_keyval_rendered_clickable :
    (all_childs ⟨"m", Variant.mapping,
        PyVal.mapping [(PyVal.str "a", PyVal.int 5)], ""⟩ ⟨0, []⟩).1
        = [Node.keyval (mkId 0) (PyVal.str "a") (PyVal.int 5)]
      ∧ strContains
          (Node.header_html (Node.keyval (mkId 0) (PyVal.str "a")
            (PyVal.int 5)))
          "register-onclick-expand" = true
      ∧ strContains
          (Node.header_html (Node.keyval (mkId 0) (PyVal.str "a")
            (PyVal.int 5)))
          "caret-invisible" = false
      ∧ (Node.from_obj (PyVal.int 5) "" ⟨1, []⟩).1.is_leaf = false :=
  ⟨rfl, by decide, by decide, rfl⟩

/-- C1: constructing a node — via the factory or any node constructor,
all of which run `Node.__post_init__` (`postInit`) — inserts the node
into the global registry keyed by its freshly generated id before it is
returned; looking that id up afterwards returns the very same node; the
id was not previously registered, and registry well-formedness (every id
issued by the generator at an earlier counter value, hence ids globally
unique and never reused) is preserved. -/
theorem construction_registers_node_before_return (s : Registry)
    (hWF : s.WF) :
    (∀ mk : String → Node, (∀ i, (mk i).getId = i) →
        (postInit mk s).2.lookup (postInit mk s).1.getId
            = some (postInit mk s).1
          ∧ s.lookup (postInit mk s).1.getId = none
          ∧ (postInit mk s).2.WF)
      ∧ ∀ v name,
          (Node.from_obj v name s).2.lookup (Node.from_obj v name s).1.id
              = some (Node.object (Node.from_obj v name s).1)
            ∧ s.lookup (Node.from_obj v name s).1.id = none
            ∧ (Node.from_obj v name s).2.WF := by
  constructor
  · intro mk hmk
    have hid : (postInit mk s).1.getId = mkId s.counter := hmk _
    refine ⟨?_, ?_, ?_⟩
    · rw [hid]
      exact lookup_insert_self _ _ _ _
    · rw [hid]
      exact lookup_fresh_none s hWF
    · exact wf_insert s hWF _
  · intro v name
    exact ⟨lookup_insert_self _ _ _ _, lookup_fresh_none s hWF,
      wf_insert s hWF _⟩

/-- C1, witness: on the well-formed empty registry, a constructed
subsection node and a factory-made builtin node are both found in the
registry under their fresh ids. -/
theorem construction_registers_node_before_return_witness :
    (postInit (fun i => Node.subsection i "sec" []) ⟨0, []⟩).2.lookup
        (postInit (fun i => Node.subsection i "sec" []) ⟨0, []⟩).1.getId
        = some (postInit (fun i => Node.subsection i "sec" []) ⟨0, []⟩).1
      ∧ (Node.from_obj (PyVal.int 7) "x" ⟨0, []⟩).2.lookup
          (Node.from_obj (PyVal.int 7) "x" ⟨0, []⟩).1.id
          = some (Node.object (Node.from_obj (PyVal.int 7) "x" ⟨0, []⟩).1) :=
  ⟨((construction_registers_node_before_return ⟨0, []⟩
        (fun p hp => absurd hp (List.not_mem_nil p))).1
      (fun i => Node.subsection i "sec" []) (fun _ => rfl)).1,
   ((construction_registers_node_before_return ⟨0, []⟩
        (fun p hp => absurd hp (List.not_mem_nil p))).2
      (PyVal.int 7) "x").1⟩

/-- C4 (amended): `header_html` is pure — in this embedding it is, by
construction, a function of the node alone, mirroring a source
computation that touches no state — but `inner_html` is not
side-effect-free: it constructs and registers fresh child nodes.  Its
only effect on program state is to extend the registry: every existing
entry is preserved (new entries are prepended) and the id counter never
decreases. -/
theorem inner_html_only_extends_registry (n : Node) (s : Registry) :
    s.Extends (Node.inner_html n s).2 := by
  cases n with
  | subsection i nm childs => exact extends_refl s
  | keyval i k v =>
    exact extends_trans (extends_from_obj v "" s) (extends_objInnerHtml _ _)
  | object o => exact extends_objInnerHtml o s

/-- C4, counterexample: evaluating `inner_html` of the `KeyValNode` for
`('a', 5)` on the empty registry registers a fresh node for the value and
so changes the program state, refuting the claim that the `inner()`
query is side-effect-free. -/
theorem inner_html_not_pure_counterexample :
    (Node.inner_html (Node.keyval "k" (PyVal.str "a") (PyVal.int 5))
        ⟨0, []⟩).2 ≠ (⟨0, []⟩ : Registry) := by
  intro h
  exact absurd (congrArg Registry.counter h) (by decide)

/-- C10: in the child partition, the name-pattern tests run before the
callable test — a child of the `Methods` bucket never has a leading
underscore, a dunder-named child always lands in `Special attributes`,
and an underscore-named child always lands in `Private`, regardless of
its variant (in particular for callables). -/
theorem name_tests_shadow_callable_test :
    (∀ cs c, c ∈ (partitionChilds cs).fn_attrs →
        pyStartsWith c.name "_" = false)
      ∧ (∀ cs c, c ∈ cs → isMagicName c.name = true →
          c ∈ (partitionChilds cs).magic_attrs)
      ∧ (∀ cs c, c ∈ cs → isMagicName c.name = false →
          pyStartsWith c.name "_" = true →
          c ∈ (partitionChilds cs).private_attrs) := by
  refine ⟨?_, ?_, ?_⟩
  · intro cs c hc
    rw [partitionChilds_eq] at hc
    have h2 := (List.mem_filter.mp hc).2
    simp only [isMethodChild, Bool.and_eq_true, Bool.not_eq_true'] at h2
    exact h2.1.2
  · intro cs c hc hm
    rw [partitionChilds_eq]
    exact List.mem_filter.mpr ⟨hc, by simp [hm]⟩
  · intro cs c hc hm hp
    rw [partitionChilds_eq]
    exact List.mem_filter.mpr ⟨hc, by simp [isPrivateChild, hm, hp]⟩

/-- C10, witness: a callable child named `_f` lands in the `Private`
bucket and not under `Methods`. -/
theorem name_tests_shadow_callable_test_witness :
    (⟨"u", Variant.fn, PyVal.fn "f", "_f"⟩ : ObjNode)
        ∈ (partitionChilds
            [⟨"u", Variant.fn, PyVal.fn "f", "_f"⟩]).private_attrs
      ∧ ¬ ((⟨"u", Variant.fn, PyVal.fn "f", "_f"⟩ : ObjNode)
        ∈ (partitionChilds
            [⟨"u", Variant.fn, PyVal.fn "f", "_f"⟩]).fn_attrs) := by
  constructor
  · exact name_tests_shadow_callable_test.2.2 _ _
      (List.mem_singleton.mpr rfl) (by decide) (by decide)
  · intro h
    exact absurd (name_tests_shadow_callable_test.1 _ _ h) (by decide)

/-- C6: when the escaped display string exceeds 80 characters, the output
of `_truncate_long_str` contains both the short fragment — the first 80
characters of the escaped string followed by the `...` expand affordance
— and the entire escaped string; otherwise the escaped string is
returned unwrapped. -/
theorem truncate_long_str_spec (s : String) :
    (strLen (htmlEscape s) > 80 →
        (∃ a b, _truncate_long_str s
            = a ++ (strTake (htmlEscape s) 80
                ++ H.spanS "content-switch-expand register-onclick-switch"
                    "...") ++ b)
          ∧ ∃ a b, _truncate_long_str s = a ++ htmlEscape s ++ b)
      ∧ (strLen (htmlEscape s) ≤ 80 →
          _truncate_long_str s = htmlEscape s) := by
  constructor
  · intro h
    constructor
    · refine ⟨"<span class=\"" ++ joinSp ["content-switch"] ++ "\">"
          ++ ("<span class=\"" ++ joinSp ["content-version-short"] ++ "\">"),
        "</span>"
          ++ H.spanS "content-version-long register-onclick-switch"
              (htmlEscape s)
          ++ "</span>", ?_⟩
      unfold _truncate_long_str
      simp only []
      rw [if_pos h]
      simp only [H.span, H.spanS, joinSp, String.append_assoc]
    · refine ⟨"<span class=\"" ++ joinSp ["content-switch"] ++ "\">"
          ++ H.span ["content-version-short"]
              (strTake (htmlEscape s) 80
                ++ H.spanS "content-switch-expand register-onclick-switch"
                    "...")
          ++ ("<span class=\""
              ++ "content-version-long register-onclick-switch" ++ "\">"),
        "</span>" ++ "</span>", ?_⟩
      unfold _truncate_long_str
      simp only []
      rw [if_pos h]
      simp only [H.span, H.spanS, joinSp, String.append_assoc]
  · intro h
    unfold _truncate_long_str
    simp only []
    rw [if_neg (by omega)]

/-- C6, witness: a 100-character string exceeds the limit once escaped
and its truncated rendering contains both fragments. -/
theorem truncate_long_str_spec_witness :
    strLen (htmlEscape sampleLong) > 80
      ∧ ((∃ a b, _truncate_long_str sampleLong
            = a ++ (strTake (htmlEscape sampleLong) 80
                ++ H.spanS "content-switch-expand register-onclick-switch"
                    "...") ++ b)
          ∧ ∃ a b, _truncate_long_str sampleLong
              = a ++ htmlEscape sampleLong ++ b) :=
  ⟨by decide, (truncate_long_str_spec sampleLong).1 (by decide)⟩

/-- C3: the children of a generic object are partitioned into inline
value attributes, callables, single-underscore names and dunder names;
a subsection node (`Methods`, `Private`, `Special attributes`) is
appended only when its bucket is non-empty, and the resulting list is
ordered: values, Methods, Private, Special attributes — each bucket
keeping the extraction order of its members. -/
theorem generic_object_children_bucketed (attrs : List (String × PyVal))
    (rE : Except PyExn String) (id name : String) (s : Registry) :
    ∃ idM idP idS,
      (all_childs ⟨id, Variant.object, PyVal.obj attrs rE, name⟩ s).1
        = ((mapFromObj attrs s).1.filter isValChild).map Node.object
          ++ (if ((mapFromObj attrs s).1.filter isMethodChild).isEmpty
              then []
              else [Node.subsection idM "Methods"
                (((mapFromObj attrs s).1.filter isMethodChild).map
                  Node.object)])
          ++ (if ((mapFromObj attrs s).1.filter isPrivateChild).isEmpty
              then []
              else [Node.subsection idP "Private"
                (((mapFromObj attrs s).1.filter isPrivateChild).map
                  Node.object)])
          ++ (if ((mapFromObj attrs s).1.filter
                (fun c => isMagicName c.name)).isEmpty
              then []
              else [Node.subsection idS "Special attributes"
                (((mapFromObj attrs s).1.filter
                  (fun c => isMagicName c.name)).map Node.object)]) := by
  show ∃ idM idP idS,
    (object_all_childs ⟨id, Variant.object, PyVal.obj attrs rE, name⟩ s).1
      = _
  unfold object_all_childs
  simp only [get_attrs, partitionChilds_eq]
  rcases hm : mapFromObj attrs s with ⟨cs, s1⟩
  simp only []
  cases hf : (cs.filter isMethodChild).isEmpty with
  | false =>
    cases hp : (cs.filter isPrivateChild).isEmpty with
    | false =>
      cases hmg : (cs.filter (fun c => isMagicName c.name)).isEmpty with
      | false =>
        exact ⟨mkId s1.counter, mkId (s1.counter + 1),
          mkId (s1.counter + 1 + 1), by simp [hf, hp, hmg, mkSubsection]⟩
      | true =>
        exact ⟨mkId s1.counter, mkId (s1.counter + 1), "",
          by simp [hf, hp, hmg, mkSubsection]⟩
    | true =>
      cases hmg : (cs.filter (fun c => isMagicName c.name)).isEmpty with
      | false =>
        exact ⟨mkId s1.counter, "", mkId (s1.counter + 1),
          by simp [hf, hp, hmg, mkSubsection]⟩
      | true =>
        exact ⟨mkId s1.counter, "", "",
          by simp [hf, hp, hmg, mkSubsection]⟩
  | true =>
    cases hp : (cs.filter isPrivateChild).isEmpty with
    | false =>
      cases hmg : (cs.filter (fun c => isMagicName c.name)).isEmpty with
      | false =>
        exact ⟨"", mkId s1.counter, mkId (s1.counter + 1),
          by simp [hf, hp, hmg, mkSubsection]⟩
      | true =>
        exact ⟨"", mkId s1.counter, "",
          by simp [hf, hp, hmg, mkSubsection]⟩
    | true =>
      cases hmg : (cs.filter (fun c => isMagicName c.name)).isEmpty with
      | false =>
        exact ⟨"", "", mkId s1.counter,
          by simp [hf, hp, hmg, mkSubsection]⟩
      | true =>
        exact ⟨"", "", "", by simp [hf, hp, hmg, mkSubsection]⟩

end Inspects
